import Mathlib

/-!
Verification of the xopera-tosca-parser policy/trigger resolution engine.

The Python sources are shallowly embedded: Python dicts become insertion-ordered
association lists (`List (String × α)` with `dinsert` for `d[k] = v`), raised
exceptions become `Except PError`, and loops become folds or structural
recursion mirroring the loop body (a `break` at the first hit becomes `find?`
or a recursion that stops at the hit).
-/

/-- A source location carried by parse/validation errors (file positions are
abstracted to a line/column pair). -/
structure Loc where
  line : Nat
  col : Nat
deriving DecidableEq, Repr

/-- The two error kinds of the parser: a location-carrying parse/validation
error (`self.abort(msg, loc)` raising ParseError) and a generic runtime error
without a location (a plain `raise RuntimeError(msg)`). -/
inductive PError where
  | parseErr (msg : String) (loc : Loc)
  | runtimeErr (msg : String)
deriving DecidableEq, Repr

/-- Whether an error carries a source location. -/
def PError.isLocated : PError → Bool
  | .parseErr _ _ => true
  | .runtimeErr _ => false

/-- Raw data payloads carried by parsed values (scalars suffice for the
properties verified here; structured payloads stay opaque behind `vtag`). -/
inductive VData where
  | vstr (s : String)
  | vint (n : Int)
  | vbool (b : Bool)
  | vnull
  | vtag (t : Nat)
deriving DecidableEq, Repr

/-- Python dict assignment `d[k] = v` on an insertion-ordered association
list: an existing key keeps its position and gets the new value, a new key is
appended at the end. -/
def dinsert {α : Type} (k : String) (v : α) : List (String × α) → List (String × α)
  | [] => [(k, v)]
  | (k', v') :: rest => if k' = k then (k, v) :: rest else (k', v') :: dinsert k v rest

/-- Python dict lookup `d.get(k)`. -/
def dlookup {α : Type} (k : String) : List (String × α) → Option α
  | [] => none
  | (k', v) :: rest => if k' = k then some v else dlookup k rest

/-- Python `list(d)` / `d.keys()`: the keys in insertion order. -/
def dkeys {α : Type} (d : List (String × α)) : List String := d.map Prod.fst

/-! ### Located YAML nodes and CapabilityDefinition.normalize -/

/-- A located YAML node, the input of the normalize hooks.  Python
distinguishes the node's value by `isinstance`: `str`, `dict`, `list`, or any
other scalar (`null`, numbers, booleans). -/
inductive YNode where
  | str (s : String) (loc : Loc)
  | ymap (entries : List (String × YNode)) (loc : Loc)
  | yseq (len : Nat) (loc : Loc)
  | scalarOther (loc : Loc)

/-- The location carried by a YAML node. -/
def YNode.loc : YNode → Loc
  | .str _ l => l
  | .ymap _ l => l
  | .yseq _ l => l
  | .scalarOther l => l

/-- The default location given to nodes synthesized during normalization
(the yaml `Node` constructor's default). -/
def synthLoc : Loc := ⟨0, 0⟩

/-- `CapabilityDefinition.normalize`: a bare string is promoted to the mapping
`{type: <the original node>}`, a mapping is returned unchanged, and any other
shape aborts with "Expected string or map." at the node's location. -/
def CapabilityDefinition.normalize (yaml_node : YNode) : Except PError YNode :=
  match yaml_node with
  | .str s l => .ok (.ymap [("type", .str s l)] synthLoc)
  | .ymap entries l => .ok (.ymap entries l)
  | n => .error (.parseErr "Expected string or map." n.loc)

/-! ### Template nodes, interfaces, operations -/

/-- A resolved interface operation; its body is irrelevant to the trigger
resolution algorithm, so it is an opaque tag. -/
structure Operation where
  tag : Nat
deriving DecidableEq, Repr

/-- A node interface: an ordered map of operation name to operation. -/
structure Interface where
  operations : List (String × Operation)
deriving DecidableEq, Repr

/-- A built node instance.  `node.types` is the resolved type-inheritance
list; every built node has at least one type, so the first entry (the node's
most-derived type, `node.types[0]`) is stored separately from the ancestor
chain. -/
structure Node where
  firstType : String
  ancestorTypes : List String
  interfaces : List (String × Interface)
deriving DecidableEq, Repr

/-- The resolved type-inheritance list `node.types`. -/
def Node.types (n : Node) : List String := n.firstType :: n.ancestorTypes

/-! ### PolicyDefinition: target collection and resolution -/

/-- A target reference literal from a `targets` list: `data` is the referenced
name; `uid` stands for Python object identity, distinguishing distinct
reference objects that share the same name. -/
structure TRef where
  data : String
  uid : Nat
deriving DecidableEq, Repr

/-- `PolicyDefinition.collect_targets` (with `collect_target_definitions`
inlined as the first comprehension): build the name-keyed dict of type-level
target definitions, build the name-keyed dict of template-level assignments,
replace the definitions wholesale by the assignments when any assignment is
present, then resolve `assignments.get(name) or definition` for each surviving
entry.  Reference resolution is the external resolver, abstracted as
`resolve_reference`. -/
def collect_targets {ρ : Type} (typeTargets templateTargets : List TRef)
    (resolve_reference : TRef → ρ) : List (String × ρ) :=
  let definitions := typeTargets.foldl (fun d t => dinsert t.data t d) []
  let assignments := templateTargets.foldl (fun d t => dinsert t.data t d) []
  let definitions := if assignments.length > 0 then assignments else definitions
  definitions.map (fun nd => (nd.1, resolve_reference ((dlookup nd.1 assignments).getD nd.2)))

/-- `PolicyDefinition.resolve_targets`: for each target name, for each node,
assign the node under its own template name whenever the target name equals
the node's template name or the node's first (most-derived) type. -/
def resolve_targets (targets : List String) (nodes : List (String × Node)) :
    List (String × Node) :=
  targets.foldl
    (fun acc target_name =>
      nodes.foldl
        (fun acc2 p =>
          if p.1 = target_name ∨ p.2.firstType = target_name then dinsert p.1 p.2 acc2
          else acc2)
        acc)
    []

/-! ### PolicyDefinition: trigger definition merge -/

/-- A trigger activity definition (one entry of a trigger's `action` list).
Each activity is a single-key mapping: `kind` is `list(action)[0]` and
`call_operation` is the payload found under the `call_operation` key (only
consulted when `kind = "call_operation"`). -/
inductive CallOpData where
  | shortForm (name : String)
  | extForm (operation : Option String) (inputs : Option (List (String × VData)))
  | otherForm
deriving Repr

/-- One trigger activity definition. -/
structure ActDef where
  kind : String
  call_operation : CallOpData
deriving Repr

/-- The `target_filter` part of a trigger definition: absent, present without
a `node` key, or present with a node reference. -/
inductive TargetFilterDef where
  | noFilter
  | filterWithoutNode
  | filterNode (node : TRef)
deriving Repr

/-- A (parsed) trigger definition, restricted to the keys `collect_triggers`
reads: `target_filter`, `event`, `condition` and `action`. -/
structure TDef where
  target_filter : TargetFilterDef
  event : Option String
  condition : Option VData
  action : List ActDef
deriving Repr

/-- The inherited-vs-explicit merge at the top of
`PolicyDefinition.collect_triggers`: every name present in both maps has its
inherited entry popped from the definitions, then the explicit assignments are
written over the result (`definitions.update(assignments)`). -/
def mergeTriggerDefs {α : Type} (definitions assignments : List (String × α)) :
    List (String × α) :=
  let pruned := definitions.filter (fun d => ¬ (dkeys assignments).contains d.1)
  assignments.foldl (fun d kv => dinsert kv.1 kv.2 d) pruned

/-! ### PolicyDefinition: trigger action resolution -/

/-- A collected trigger action: interface name, operation name, the operation
object, and the extra inputs taken from the trigger's activity definition. -/
abbrev ActTuple := String × String × Operation × List (String × VData)

/-- The scan state of `collect_trigger_action_from_interfaces`: the
`collected_action` so far and the `actions_found` counter. -/
abbrev ScanState := Option ActTuple × Nat

/-- The innermost loop of `collect_trigger_action_from_interfaces` over one
interface's operations: at the first operation whose dotted name
`<interface>.<operation>` equals the requested name, bump the counter, record
the action together with the freshly evaluated extra inputs, and `break`;
otherwise keep scanning. -/
def scanOperations (interface_name : String) (ops : List (String × Operation))
    (call_operation_name : String) (inputs : List (String × VData))
    (evalInput : String → VData → VData) (st : ScanState) : ScanState :=
  match ops with
  | [] => st
  | (operation_name, operation) :: rest =>
    if interface_name ++ "." ++ operation_name = call_operation_name then
      (some (interface_name, operation_name, operation,
             inputs.map (fun kv => (kv.1, evalInput kv.1 kv.2))), st.2 + 1)
    else
      scanOperations interface_name rest call_operation_name inputs evalInput st

/-- The error message raised when no candidate node interface exposes the
requested `<interface>.<operation>` name. -/
def noActionMsg (call_operation_name : String) : String :=
  "Trigger action: " ++ call_operation_name ++ " from call_operation does not belong to " ++
  "any node interface. Make sure that you have referenced it correctly (as " ++
  "<interface_sub_name>.<operation_sub_name>, where interface_sub_name is the interface " ++
  "name and the operation_sub_name is the name of the operation within this interface). " ++
  "The node that you're targeting with interface operation also has to be used in " ++
  "topology_template/node_templates section"

/-- `PolicyDefinition.collect_trigger_action_from_interfaces`: scan every
candidate node's interfaces and operations for the dotted operation name
(the per-interface inner loop is `scanOperations`); zero matches aborts with
`noActionMsg` at the policy's location, otherwise the collected action is
returned.  The value evaluator applied to the extra inputs
(`Value(None, True, Value(None, True, v).eval(self, k))`) lives outside this
module and is abstracted as `evalInput`. -/
def collect_trigger_action_from_interfaces (targeted_nodes : List (String × Node))
    (call_operation_name : String) (inputs : List (String × VData))
    (evalInput : String → VData → VData) (loc : Loc) :
    Except PError (Option ActTuple) :=
  let st := targeted_nodes.foldl
    (fun st1 tn =>
      tn.2.interfaces.foldl
        (fun st2 itf =>
          scanOperations itf.1 itf.2.operations call_operation_name inputs evalInput st2)
        st1)
    ((none : Option ActTuple), 0)
  if st.2 = 0 then .error (.parseErr (noActionMsg call_operation_name) loc)
  else .ok st.1

/-- `PolicyDefinition.collect_trigger_target_nodes`: with a target filter,
exactly the first node (loop with `break`) whose template name or first type
equals the filter's node name; without a filter but with policy targets, every
node matching some policy target by the same rule; with neither, all nodes. -/
def collect_trigger_target_nodes {ρ : Type} (target_filter : Option String)
    (nodes : List (String × Node)) (policy_targets : List (String × ρ)) :
    List (String × Node) :=
  match target_filter with
  | some fname =>
    match nodes.find? (fun p => p.1 = fname ∨ p.2.firstType = fname) with
    | some p => [p]
    | none => []
  | none =>
    if policy_targets.length > 0 then
      nodes.foldl
        (fun acc p =>
          policy_targets.foldl
            (fun acc2 q =>
              if q.1 = p.1 ∨ q.1 = p.2.firstType then dinsert p.1 p.2 acc2 else acc2)
            acc)
        []
    else nodes

/-- `PolicyDefinition.collect_trigger_actions`: for each activity definition,
reject any kind other than `call_operation`, extract the operation name and
inputs from the short or extended notation, reject a missing or empty name,
compute the candidate nodes and collect the action from their interfaces.
When the extended notation carries no `inputs` key Python stores `None` and
the comprehension over `inputs.items()` raises on the first match; the
embedding raises that error up front. -/
def collect_trigger_actions {ρ : Type} (action_definitions : List ActDef)
    (target_filter : Option String) (nodes : List (String × Node))
    (policy_targets : List (String × ρ))
    (evalInput : String → VData → VData) (loc : Loc) :
    Except PError (List ActTuple) :=
  action_definitions.foldlM
    (fun actions action =>
      if action.kind ≠ "call_operation" then
        .error (.parseErr ("Unsupported trigger activity definitions: " ++ action.kind ++
          ". Only call_operation is supported.") loc)
      else do
        let nameAndInputs : Option String × Option (List (String × VData)) ←
          match action.call_operation with
          | .shortForm s => pure (some s, some [])
          | .extForm operation inputs => pure (operation, inputs)
          | .otherForm =>
            .error (.parseErr "Invalid call operation activity definition type." loc)
        if nameAndInputs.1 = none ∨ nameAndInputs.1 = some "" then
          .error (.parseErr "Missing required name for call_operation activity definition." loc)
        else do
          let call_operation_name := nameAndInputs.1.getD ""
          let inputs ←
            match nameAndInputs.2 with
            | some l => pure l
            | none => .error (.runtimeErr "NoneType object has no attribute items")
          let targeted_nodes := collect_trigger_target_nodes target_filter nodes policy_targets
          let collected ← collect_trigger_action_from_interfaces targeted_nodes
            call_operation_name inputs evalInput loc
          match collected with
          | some a => pure (actions ++ [a])
          | none => pure actions)
    []

/-- `PolicyDefinition.resolve_event_filter`: link the trigger's target filter
name to the first node whose template name or first type matches (loop with
`break`). -/
def resolve_event_filter (target_filter : Option String)
    (nodes : List (String × Node)) : Option (String × Node) :=
  match target_filter with
  | none => none
  | some fname => nodes.find? (fun p => p.1 = fname ∨ p.2.firstType = fname)

/-- A built trigger object. -/
structure Trigger where
  name : String
  event : Option String
  target_filter : Option (String × Node)
  condition : Option VData
  action : List ActTuple
deriving Repr

/-- The error message of the target_filter-vs-targets consistency check. -/
def filterMismatchMsg (fname : String) : String :=
  "The node reference: " ++ fname ++ " from policy trigger's target_filter should be " ++
  "also present in policy's targets."

/-- `PolicyDefinition.collect_triggers`: merge inherited trigger definitions
with explicit assignments (`mergeTriggerDefs`), then for each surviving
definition resolve its target filter (a `target_filter` without a `node` key
aborts; the node reference is resolved against the document), check the
filter name against the policy's targets only when the policy has any
targets, collect the actions and build the trigger.  Reference resolution
against the service AST is abstracted as `resolve_reference`. -/
def collect_triggers {ρ σ : Type} (definitions assignments : List (String × TDef))
    (resolve_reference : TRef → Except PError σ)
    (policy_targets : List (String × ρ)) (nodes : List (String × Node))
    (evalInput : String → VData → VData) (loc : Loc) :
    Except PError (List (String × Trigger)) :=
  (mergeTriggerDefs definitions assignments).foldlM
    (fun triggers nd => do
      let name := nd.1
      let definition := nd.2
      let target_filter ←
        match definition.target_filter with
        | .noFilter => pure (none : Option String)
        | .filterWithoutNode =>
          .error (.parseErr "Cannot obtain node from target_filter." loc)
        | .filterNode tnode => do
          let _ ← resolve_reference tnode
          pure (some tnode.data)
      match target_filter with
      | some fname =>
        if policy_targets.length > 0 ∧ ¬ (dkeys policy_targets).contains fname then
          .error (.parseErr (filterMismatchMsg fname) loc)
        else pure ()
      | none => pure ()
      let actions ← collect_trigger_actions definition.action target_filter nodes
        policy_targets evalInput loc
      let trigger : Trigger :=
        { name := name, event := definition.event,
          target_filter := resolve_event_filter target_filter nodes,
          condition := definition.condition, action := actions }
      pure (triggers ++ [(name, trigger)]))
    []

/-! ### PolicyDefinition: value evaluation helpers -/

/-- A stored `Value` object from the policy's collected property map: a raw
payload plus the is-function flag (the class itself lives outside this
module). -/
structure StoredValue where
  payload : VData
  is_function : Bool
deriving DecidableEq, Repr

/-- The Python `repr` of a string as it appears inside an f-string rendering
of a list of keys. -/
def pyStrRepr (s : String) : String :=
  String.singleton (Char.ofNat 39) ++ s ++ String.singleton (Char.ofNat 39)

/-- The Python `repr` of `list(d.keys())`. -/
def pyKeysRepr {α : Type} (d : List (String × α)) : String :=
  "[" ++ String.intercalate ", " ((dkeys d).map pyStrRepr) ++ "]"

/-- The message of the unknown-property failure: it names the property and
lists the known property names. -/
def unknownPropMsg {α : Type} (prop : String) (d : List (String × α)) : String :=
  "unknown property: " ++ prop ++ " (" ++ pyKeysRepr d ++ ")"

/-- `PolicyDefinition.get_property`: unpack `host, prop, *rest` from the
parameters, reject any host other than the literal "SELF" with a plain
RuntimeError naming the host, look the property up in the already-collected
property map and evaluate it, or reject an unknown property with a plain
RuntimeError naming it and listing the known names.  The `Value.eval` call on
a found property lives outside this module and is abstracted as
`evalValue`. -/
def get_property (collected_properties : List (String × StoredValue))
    (evalValue : StoredValue → String → Except PError VData)
    (params : List String) : Except PError VData :=
  match params with
  | host :: prop :: _ =>
    if host ≠ "SELF" then
      .error (.runtimeErr ("unknown host: " ++ host))
    else
      match dlookup prop collected_properties with
      | some v => evalValue v prop
      | none => .error (.runtimeErr (unknownPropMsg prop collected_properties))
  | _ => .error (.runtimeErr "not enough values to unpack (expected at least 2)")

/-! ### AttributeDefinition.get_value -/

/-- A `Value` object as constructed by `Value(typ, False)` or by the `default`
entry's own `get_value`: the type argument, the is-function flag, and an
optional payload (absent when the constructor receives no data argument). -/
structure ValueObj (τ : Type) where
  typ : τ
  is_function : Bool
  payload : Option VData
deriving DecidableEq, Repr

/-- An `AttributeDefinition` entity, restricted to the one attribute
`get_value` reads: the optional `default` entry (`"default" in self`). -/
structure AttributeDefinition (δ : Type) where
  default : Option δ
deriving DecidableEq, Repr

/-- `AttributeDefinition.get_value`: when the entity contains a `default`
attribute, forward to that default's own `get_value` (the parsed default is a
`Void` value whose `get_value` lives outside this module, abstracted as
`defaultGetValue`); otherwise return a fresh `Value(typ, False)`. -/
def AttributeDefinition.get_value {τ δ : Type} (self : AttributeDefinition δ)
    (typ : τ) (defaultGetValue : δ → τ → ValueObj τ) : ValueObj τ :=
  match self.default with
  | some d => defaultGetValue d typ
  | none => { typ := typ, is_function := false, payload := none }

/-! ### The parse entry points -/

/-- The system's output artifact; its contents are irrelevant to the claims
about the parse entry points, so it is an opaque tag. -/
structure Topology where
  tag : Nat
deriving DecidableEq, Repr

/-- User-supplied inputs for template building. -/
abbrev Inputs := List (String × VData)

/-- Modelled from the spec: the archive-access collaborator (the
`CloudServiceArchive` classes are outside the given sources).  Its interface
is `validate_csar()` (which may fail) and `get_entrypoint() -> Optional
relative path`; `DirCloudServiceArchive` marks an uncompressed directory
archive, otherwise the archive is unpackaged into a temporary directory
first. -/
structure CSAR where
  valid : Bool
  entrypoint : Option String
  isDirArchive : Bool
deriving DecidableEq, Repr

/-- `parse_csar`: default the inputs, create and validate the archive, read
its entrypoint; with an entrypoint, load the AST from the working directory
(directory archives in place, compressed archives after unpackaging — both
branches run the same load-and-build) and build the template; with no
entrypoint, the Python function body ends and implicitly returns `None`.
Document loading and template building are the external collaborators
`tosca.load` / `ast.get_template`, abstracted as `loadTemplate`. -/
def parse_csar (csar : CSAR) (inputs : Option Inputs)
    (loadTemplate : String → Inputs → Except PError Topology) :
    Except PError (Option Topology) := do
  let inputs := inputs.getD []
  if ¬ csar.valid then
    .error (.runtimeErr "invalid CSAR")
  else
    match csar.entrypoint with
    | some entrypoint => do
      let t ← loadTemplate entrypoint inputs
      pure (some t)
    | none => pure none

/-- `parse_service_template`: default the inputs, load the AST of the named
document and build the template. -/
def parse_service_template (templateName : String) (inputs : Option Inputs)
    (loadTemplate : String → Inputs → Except PError Topology) :
    Except PError (Option Topology) := do
  let inputs := inputs.getD []
  let t ← loadTemplate templateName inputs
  pure (some t)

/-- `parse`: a zipfile or a directory goes through `parse_csar`, anything
else through `parse_service_template` (the filesystem check
`is_zipfile(path) or Path(path).is_dir()` is abstracted as `isArchive`). -/
def parse (isArchive : Bool) (csar : CSAR) (templateName : String)
    (inputs : Option Inputs)
    (loadTemplate : String → Inputs → Except PError Topology) :
    Except PError (Option Topology) :=
  if isArchive then parse_csar csar inputs loadTemplate
  else parse_service_template templateName inputs loadTemplate

/-! ### Characterizations used by the theorem statements -/

/-- The first operation of one interface whose dotted name equals the
requested operation name, if any. -/
def interfaceFirstMatch (call_operation_name : String) (itf : String × Interface) :
    Option (String × String × Operation) :=
  (itf.2.operations.find? (fun op => itf.1 ++ "." ++ op.1 = call_operation_name)).map
    (fun op => (itf.1, op.1, op.2))

/-- All matches the trigger-action scan counts, in candidate iteration order:
for every candidate node and every interface, the first operation whose dotted
name equals the requested name. -/
def triggerMatches (targeted_nodes : List (String × Node))
    (call_operation_name : String) : List (String × String × Operation) :=
  targeted_nodes.flatMap
    (fun tn => tn.2.interfaces.filterMap (interfaceFirstMatch call_operation_name))

/-- Attach the evaluated extra inputs to a matched interface operation. -/
def withInputs (inputs : List (String × VData)) (evalInput : String → VData → VData)
    (m : String × String × Operation) : ActTuple :=
  (m.1, m.2.1, m.2.2, inputs.map (fun kv => (kv.1, evalInput kv.1 kv.2)))

/-- Whether a node matches some policy target by template name or first
type. -/
def matchesSomeTarget {ρ : Type} (policy_targets : List (String × ρ))
    (p : String × Node) : Bool :=
  policy_targets.any (fun q => q.1 = p.1 ∨ q.1 = p.2.firstType)

/-! ### Association-list lemmas -/

theorem dkeys_cons {α : Type} (k : String) (v : α) (d : List (String × α)) :
    dkeys ((k, v) :: d) = k :: dkeys d := rfl

theorem mem_dkeys {α : Type} (a : String) (d : List (String × α)) :
    a ∈ dkeys d ↔ ∃ b, (a, b) ∈ d := by
  constructor
  · intro h
    obtain ⟨⟨x, y⟩, hp, he⟩ := List.mem_map.mp h
    have hxa : x = a := he
    subst hxa
    exact ⟨y, hp⟩
  · rintro ⟨b, hb⟩
    exact List.mem_map.mpr ⟨(a, b), hb, rfl⟩

theorem dlookup_dinsert {α : Type} (a k : String) (v : α) (d : List (String × α)) :
    dlookup a (dinsert k v d) = if k = a then some v else dlookup a d := by
  induction d with
  | nil => simp [dinsert, dlookup]
  | cons hd tl ih =>
    obtain ⟨k', v'⟩ := hd
    by_cases hk : k' = k
    · by_cases ha : k = a
      · simp [dinsert, dlookup, hk, ha]
      · have ha' : ¬ k' = a := fun h => ha (hk ▸ h)
        simp [dinsert, dlookup, hk, ha, ha']
    · by_cases ha : k' = a
      · have hka : ¬ k = a := fun h => hk (ha.trans h.symm)
        have hak : ¬ a = k := fun h => hka h.symm
        simp [dinsert, dlookup, hk, ha, hka, hak]
      · simp [dinsert, dlookup, hk, ha, ih]

theorem mem_dkeys_dinsert {α : Type} (a k : String) (v : α) (d : List (String × α)) :
    a ∈ dkeys (dinsert k v d) ↔ a = k ∨ a ∈ dkeys d := by
  induction d with
  | nil => simp [dinsert, dkeys]
  | cons hd tl ih =>
    obtain ⟨k', v'⟩ := hd
    by_cases hk : k' = k
    · subst hk
      rw [show dinsert k' v ((k', v') :: tl) = (k', v) :: tl from by simp [dinsert]]
      simp only [dkeys_cons, List.mem_cons]
      tauto
    · rw [show dinsert k v ((k', v') :: tl) = (k', v') :: dinsert k v tl from by
          simp [dinsert, hk]]
      simp only [dkeys_cons, List.mem_cons, ih]
      tauto

theorem dkeys_nodup_dinsert {α : Type} (k : String) (v : α) (d : List (String × α))
    (h : (dkeys d).Nodup) : (dkeys (dinsert k v d)).Nodup := by
  induction d with
  | nil => simp [dinsert, dkeys]
  | cons hd tl ih =>
    obtain ⟨k', v'⟩ := hd
    rw [dkeys_cons, List.nodup_cons] at h
    by_cases hk : k' = k
    · subst hk
      rw [show dinsert k' v ((k', v') :: tl) = (k', v) :: tl from by simp [dinsert]]
      rw [dkeys_cons, List.nodup_cons]
      exact h
    · rw [show dinsert k v ((k', v') :: tl) = (k', v') :: dinsert k v tl from by
          simp [dinsert, hk]]
      rw [dkeys_cons, List.nodup_cons]
      refine ⟨?_, ih h.2⟩
      rw [mem_dkeys_dinsert]
      rintro (h1 | h2)
      · exact hk h1
      · exact h.1 h2

theorem mem_dinsert {α : Type} (a k : String) (b v : α) (d : List (String × α))
    (h : (dkeys d).Nodup) :
    (a, b) ∈ dinsert k v d ↔ (a = k ∧ b = v) ∨ ((a, b) ∈ d ∧ a ≠ k) := by
  induction d with
  | nil =>
    rw [show dinsert k v ([] : List (String × α)) = [(k, v)] from rfl]
    simp [Prod.ext_iff]
  | cons hd tl ih =>
    obtain ⟨k', v'⟩ := hd
    rw [dkeys_cons, List.nodup_cons] at h
    by_cases hk : k' = k
    · subst hk
      rw [show dinsert k' v ((k', v') :: tl) = (k', v) :: tl from by simp [dinsert]]
      rw [List.mem_cons, List.mem_cons]
      constructor
      · rintro (heq | hmem)
        · exact Or.inl ⟨(Prod.ext_iff.mp heq).1, (Prod.ext_iff.mp heq).2⟩
        · have hak : a ≠ k' := by
            intro hak
            subst hak
            exact h.1 ((mem_dkeys a tl).mpr ⟨b, hmem⟩)
          exact Or.inr ⟨Or.inr hmem, hak⟩
      · rintro (⟨ha, hb⟩ | ⟨(heq | hmem), hne⟩)
        · exact Or.inl (by rw [ha, hb])
        · exact absurd (Prod.ext_iff.mp heq).1 hne
        · exact Or.inr hmem
    · rw [show dinsert k v ((k', v') :: tl) = (k', v') :: dinsert k v tl from by
          simp [dinsert, hk]]
      rw [List.mem_cons, ih h.2, List.mem_cons]
      constructor
      · rintro (heq | ⟨ha, hb⟩ | ⟨hmem, hne⟩)
        · have ha : a = k' := (Prod.ext_iff.mp heq).1
          exact Or.inr ⟨Or.inl heq, fun hak => hk (ha ▸ hak)⟩
        · exact Or.inl ⟨ha, hb⟩
        · exact Or.inr ⟨Or.inr hmem, hne⟩
      · rintro (⟨ha, hb⟩ | ⟨(heq | hmem), hne⟩)
        · exact Or.inr (Or.inl ⟨ha, hb⟩)
        · exact Or.inl heq
        · exact Or.inr (Or.inr ⟨hmem, hne⟩)

theorem dinsert_eq_append {α : Type} (k : String) (v : α) (d : List (String × α))
    (h : k ∉ dkeys d) : dinsert k v d = d ++ [(k, v)] := by
  induction d with
  | nil => simp [dinsert]
  | cons hd tl ih =>
    obtain ⟨k', v'⟩ := hd
    rw [dkeys_cons, List.mem_cons] at h
    push_neg at h
    have hk : ¬ k' = k := fun hq => h.1 hq.symm
    simp [dinsert, hk, ih h.2]

theorem dinsert_idem {α : Type} (k : String) (v : α) (d : List (String × α)) :
    dinsert k v (dinsert k v d) = dinsert k v d := by
  induction d with
  | nil => simp [dinsert]
  | cons hd tl ih =>
    obtain ⟨k', v'⟩ := hd
    by_cases hk : k' = k
    · simp [dinsert, hk]
    · simp [dinsert, hk, ih]

theorem dlookup_eq_some_of_mem {α : Type} (k : String) (v : α) (d : List (String × α))
    (h : (dkeys d).Nodup) (hmem : (k, v) ∈ d) : dlookup k d = some v := by
  induction d with
  | nil => simp at hmem
  | cons hd tl ih =>
    obtain ⟨k', v'⟩ := hd
    rw [dkeys_cons, List.nodup_cons] at h
    rcases List.mem_cons.mp hmem with heq | hmem'
    · cases heq
      simp [dlookup]
    · have hk : ¬ k' = k := by
        intro hq
        subst hq
        exact h.1 ((mem_dkeys k' tl).mpr ⟨v, hmem'⟩)
      simp [dlookup, hk, ih h.2 hmem']

theorem mem_of_dlookup_eq_some {α : Type} (k : String) (v : α) (d : List (String × α))
    (h : dlookup k d = some v) : (k, v) ∈ d := by
  induction d with
  | nil => simp [dlookup] at h
  | cons hd tl ih =>
    obtain ⟨k', v'⟩ := hd
    by_cases hk : k' = k
    · subst hk
      simp [dlookup] at h
      simp [h]
    · simp only [dlookup, if_neg hk] at h
      exact List.mem_cons_of_mem _ (ih h)

/-! ### C8: CapabilityDefinition.normalize -/

/-- C8: `CapabilityDefinition.normalize` maps every bare-string node with
value `s` to the single-key mapping `{type: s}`, returns every mapping node
unchanged, rejects every other shape with a location-carrying error at the
node's location, and is idempotent on every node it accepts:
`normalize (normalize n) = normalize n` whenever `normalize n` succeeds. -/
theorem c8_normalize_shapes_and_idempotent :
    (∀ s l, CapabilityDefinition.normalize (.str s l)
        = .ok (.ymap [("type", .str s l)] synthLoc)) ∧
    (∀ entries l, CapabilityDefinition.normalize (.ymap entries l)
        = .ok (.ymap entries l)) ∧
    (∀ n : YNode, (∀ s l, n ≠ .str s l) → (∀ entries l, n ≠ .ymap entries l) →
        CapabilityDefinition.normalize n
          = .error (.parseErr "Expected string or map." n.loc) ∧
        PError.isLocated (.parseErr "Expected string or map." n.loc) = true) ∧
    (∀ n m : YNode, CapabilityDefinition.normalize n = .ok m →
        CapabilityDefinition.normalize m = .ok m) := by
  refine ⟨fun s l => rfl, fun entries l => rfl, ?_, ?_⟩
  · intro n hs hm
    cases n with
    | str s l => exact absurd rfl (hs s l)
    | ymap e l => exact absurd rfl (hm e l)
    | yseq len l => exact ⟨rfl, rfl⟩
    | scalarOther l => exact ⟨rfl, rfl⟩
  · intro n m hnm
    cases n with
    | str s l =>
      have h := Except.ok.inj hnm
      subst h
      rfl
    | ymap e l =>
      have h := Except.ok.inj hnm
      subst h
      rfl
    | yseq len l => simp [CapabilityDefinition.normalize] at hnm
    | scalarOther l => simp [CapabilityDefinition.normalize] at hnm

/-- Witness for C8: a sequence node is rejected with a located error, and a
mapping node produced from a bare string is accepted unchanged. -/
theorem c8_normalize_witness :
    CapabilityDefinition.normalize (.yseq 0 ⟨3, 4⟩)
      = .error (.parseErr "Expected string or map." ⟨3, 4⟩) ∧
    CapabilityDefinition.normalize (.ymap [("type", .str "t" ⟨1, 1⟩)] synthLoc)
      = .ok (.ymap [("type", .str "t" ⟨1, 1⟩)] synthLoc) :=
  ⟨(c8_normalize_shapes_and_idempotent.2.2.1 (.yseq 0 ⟨3, 4⟩)
      (fun _ _ h => YNode.noConfusion h) (fun _ _ h => YNode.noConfusion h)).1,
   c8_normalize_shapes_and_idempotent.2.2.2 (.str "t" ⟨1, 1⟩)
     (.ymap [("type", .str "t" ⟨1, 1⟩)] synthLoc) rfl⟩

/-! ### More association-list lemmas (folds of dict assignments) -/

theorem dinsert_ne_nil {α : Type} (k : String) (v : α) (d : List (String × α)) :
    dinsert k v d ≠ [] := by
  cases d with
  | nil => simp [dinsert]
  | cons p ps =>
    obtain ⟨k', v'⟩ := p
    by_cases hk : k' = k <;> simp [dinsert, hk]

theorem tref_fold_nodup (l : List TRef) (d : List (String × TRef))
    (h : (dkeys d).Nodup) :
    (dkeys (l.foldl (fun d t => dinsert t.data t d) d)).Nodup := by
  induction l generalizing d with
  | nil => simpa using h
  | cons x xs ih => exact ih _ (dkeys_nodup_dinsert _ _ _ h)

theorem tref_fold_ne_nil (l : List TRef) (d : List (String × TRef)) (hd : d ≠ []) :
    l.foldl (fun d t => dinsert t.data t d) d ≠ [] := by
  induction l generalizing d with
  | nil => simpa using hd
  | cons x xs ih => exact ih _ (dinsert_ne_nil _ _ _)

theorem dlookup_append {α : Type} (k : String) (l1 l2 : List (String × α)) :
    dlookup k (l1 ++ l2)
      = match dlookup k l1 with
        | some v => some v
        | none => dlookup k l2 := by
  induction l1 with
  | nil => simp [dlookup]
  | cons p ps ih =>
    obtain ⟨k', v'⟩ := p
    by_cases hk : k' = k <;> simp [dlookup, hk, ih]

theorem dlookup_foldl_dinsert {α : Type} (l init : List (String × α)) (k : String) :
    dlookup k (l.foldl (fun d kv => dinsert kv.1 kv.2 d) init)
      = match dlookup k l.reverse with
        | some v => some v
        | none => dlookup k init := by
  induction l generalizing init with
  | nil => simp [dlookup]
  | cons kv rest ih =>
    rw [List.foldl_cons, ih, List.reverse_cons, dlookup_append]
    cases h1 : dlookup k rest.reverse with
    | some v => rfl
    | none =>
      rw [dlookup_dinsert]
      obtain ⟨k', v'⟩ := kv
      by_cases hk : k' = k <;> simp [dlookup, hk]

/-! ### C10: AttributeDefinition.get_value -/

/-- C10: `AttributeDefinition.get_value` returns the value obtained from the
`default` entry when the entity contains one, and otherwise a fresh
non-function `Value(typ, False)` of type `typ` carrying no payload. -/
theorem c10_attribute_get_value {τ δ : Type} (self : AttributeDefinition δ) (typ : τ)
    (defaultGetValue : δ → τ → ValueObj τ) :
    (∀ d, self.default = some d →
        self.get_value typ defaultGetValue = defaultGetValue d typ) ∧
    (self.default = none →
        self.get_value typ defaultGetValue
          = { typ := typ, is_function := false, payload := none }) := by
  constructor
  · intro d hd
    simp [AttributeDefinition.get_value, hd]
  · intro hd
    simp [AttributeDefinition.get_value, hd]

/-- Witness for C10: a present default is forwarded, an absent one yields the
fresh non-function value. -/
theorem c10_attribute_get_value_witness :
    AttributeDefinition.get_value { default := some (VData.vint 7) } (0 : Nat)
        (fun d _ => { typ := 0, is_function := true, payload := some d })
      = { typ := 0, is_function := true, payload := some (VData.vint 7) } ∧
    AttributeDefinition.get_value { default := (none : Option VData) } (0 : Nat)
        (fun d _ => { typ := 0, is_function := true, payload := some d })
      = { typ := 0, is_function := false, payload := none } :=
  ⟨(c10_attribute_get_value _ _ _).1 (VData.vint 7) rfl,
   (c10_attribute_get_value _ _ _).2 rfl⟩

/-! ### C6: get_property failure modes -/

/-- C6 (amended): `get_property` with any host other than the literal "SELF"
fails with a fatal error naming the unknown host, and with a property name
absent from the context entity's collected property map fails with a fatal
error naming the property and listing the known names; both failures are
plain runtime errors that carry no source location. -/
theorem c6_get_property_errors (props : List (String × StoredValue))
    (evalValue : StoredValue → String → Except PError VData)
    (host prop : String) (rest : List String) :
    (host ≠ "SELF" →
      get_property props evalValue (host :: prop :: rest)
        = .error (.runtimeErr ("unknown host: " ++ host)) ∧
      PError.isLocated (.runtimeErr ("unknown host: " ++ host)) = false) ∧
    (host = "SELF" → dlookup prop props = none →
      get_property props evalValue (host :: prop :: rest)
        = .error (.runtimeErr (unknownPropMsg prop props)) ∧
      PError.isLocated (.runtimeErr (unknownPropMsg prop props)) = false) := by
  constructor
  · intro h
    exact ⟨by simp [get_property, h], rfl⟩
  · intro h hl
    subst h
    exact ⟨by simp [get_property, hl], rfl⟩

/-- C6 counterexample: the unknown-host failure (and likewise the
unknown-property failure) is a plain runtime error carrying no source
location, so it is not a location-carrying error. -/
theorem c6_counterexample :
    get_property [] (fun v _ => .ok v.payload) ["HOST1", "p"]
      = .error (.runtimeErr "unknown host: HOST1") ∧
    PError.isLocated (.runtimeErr "unknown host: HOST1") = false := by
  exact ⟨rfl, rfl⟩

/-- Witness for C6: both failure modes at concrete inputs. -/
theorem c6_get_property_errors_witness :
    get_property [("a", (⟨VData.vnull, false⟩ : StoredValue))] (fun v _ => .ok v.payload)
        ["OTHER", "p"]
      = .error (.runtimeErr ("unknown host: " ++ "OTHER")) ∧
    get_property [("a", (⟨VData.vnull, false⟩ : StoredValue))] (fun v _ => .ok v.payload)
        ["SELF", "b"]
      = .error (.runtimeErr (unknownPropMsg "b"
          [("a", (⟨VData.vnull, false⟩ : StoredValue))])) :=
  ⟨((c6_get_property_errors _ _ "OTHER" "p" []).1 (by decide)).1,
   ((c6_get_property_errors _ _ "SELF" "b" []).2 rfl (by decide)).1⟩

/-! ### C2: explicit assignments replace inherited definitions -/

/-- C2: explicit template-level assignments always replace inherited
type-level definitions wholesale, never merged field-by-field.  For targets:
any non-empty explicit `targets` list makes the collected map exactly the
resolved explicit assignment map (the inherited definitions are discarded).
For triggers: any name bound in the explicit assignments is bound in the
merged map to exactly the explicit definition. -/
theorem c2_explicit_assignments_win :
    (∀ (ρ : Type) (typeTargets templateTargets : List TRef) (resolve : TRef → ρ),
      templateTargets ≠ [] →
      collect_targets typeTargets templateTargets resolve
        = (templateTargets.foldl (fun d t => dinsert t.data t d) []).map
            (fun nd => (nd.1, resolve nd.2))) ∧
    (∀ (α : Type) (definitions assignments : List (String × α)) (X : String) (v : α),
      (dkeys assignments).Nodup → dlookup X assignments = some v →
      dlookup X (mergeTriggerDefs definitions assignments) = some v) := by
  constructor
  · intro ρ typeTargets templateTargets resolve hne
    have hnodup := tref_fold_nodup templateTargets [] (by simp [dkeys])
    have hlen : 0 < (templateTargets.foldl (fun d t => dinsert t.data t d) []).length := by
      rcases templateTargets with _ | ⟨t, ts⟩
      · exact absurd rfl hne
      · rw [List.length_pos]
        rw [List.foldl_cons]
        exact tref_fold_ne_nil ts _ (dinsert_ne_nil _ _ _)
    simp only [collect_targets]
    rw [if_pos hlen]
    apply List.map_congr_left
    intro nd hnd
    rw [dlookup_eq_some_of_mem nd.1 nd.2 _ hnodup (by simpa using hnd)]
    rfl
  · intro α definitions assignments X v hnodup hX
    have hrev : dlookup X assignments.reverse = some v := by
      apply dlookup_eq_some_of_mem
      · rw [show dkeys assignments.reverse = (dkeys assignments).reverse from
            List.map_reverse _ _]
        exact List.nodup_reverse.mpr hnodup
      · exact List.mem_reverse.mpr (mem_of_dlookup_eq_some _ _ _ hX)
    simp only [mergeTriggerDefs]
    rw [dlookup_foldl_dinsert, hrev]

/-- Witness for C2: a concrete policy with one inherited and two explicit
targets, and a trigger name bound both ways. -/
theorem c2_explicit_assignments_win_witness :
    collect_targets [(⟨"A", 0⟩ : TRef)] [(⟨"A", 1⟩ : TRef), ⟨"B", 2⟩] (fun t => t.uid)
      = [("A", (⟨"A", 1⟩ : TRef)), ("B", ⟨"B", 2⟩)].map (fun nd => (nd.1, nd.2.uid)) ∧
    dlookup "t" (mergeTriggerDefs [("t", 0)] [("t", 1)]) = some (1 : Nat) :=
  ⟨by
    rw [c2_explicit_assignments_win.1 Nat [(⟨"A", 0⟩ : TRef)] [(⟨"A", 1⟩ : TRef), ⟨"B", 2⟩]
        (fun t => t.uid) (by decide)]
    rfl,
   c2_explicit_assignments_win.2 Nat [("t", 0)] [("t", 1)] "t" 1 (by decide) (by decide)⟩

/-! ### resolve_targets: fold characterization -/

theorem mem_dinsert_pair {α : Type} (p : String × α) (k : String) (v : α)
    (d : List (String × α)) (h : (dkeys d).Nodup) :
    p ∈ dinsert k v d ↔ (p.1 = k ∧ p.2 = v) ∨ (p ∈ d ∧ p.1 ≠ k) := by
  obtain ⟨a, b⟩ := p
  exact mem_dinsert a k b v d h

theorem keyFun_of_nodup {α : Type} (l : List (String × α)) (h : (dkeys l).Nodup) :
    ∀ k v v', (k, v) ∈ l → (k, v') ∈ l → v = v' := by
  intro k v v' h1 h2
  have e1 := dlookup_eq_some_of_mem k v l h h1
  have e2 := dlookup_eq_some_of_mem k v' l h h2
  rw [e1] at e2
  exact Option.some.inj e2

theorem resolve_round_nodup (T : String) (nodes : List (String × Node)) :
    ∀ acc : List (String × Node), (dkeys acc).Nodup →
    (dkeys (nodes.foldl
        (fun acc2 q =>
          if q.1 = T ∨ q.2.firstType = T then dinsert q.1 q.2 acc2 else acc2)
        acc)).Nodup := by
  induction nodes with
  | nil => intro acc h; simpa using h
  | cons n rest ih =>
    intro acc h
    rw [List.foldl_cons]
    by_cases hm : n.1 = T ∨ n.2.firstType = T
    · rw [if_pos hm]
      exact ih _ (dkeys_nodup_dinsert _ _ _ h)
    · rw [if_neg hm]
      exact ih _ h

theorem resolve_round_mem (T : String) :
    ∀ (nodes acc : List (String × Node)) (p : String × Node),
    (dkeys acc).Nodup →
    (∀ k v v', (k, v) ∈ acc ++ nodes → (k, v') ∈ acc ++ nodes → v = v') →
    (p ∈ nodes.foldl
        (fun acc2 q =>
          if q.1 = T ∨ q.2.firstType = T then dinsert q.1 q.2 acc2 else acc2)
        acc
      ↔ p ∈ acc ∨ (p ∈ nodes ∧ (p.1 = T ∨ p.2.firstType = T))) := by
  intro nodes
  induction nodes with
  | nil =>
    intro acc p hnd hfun
    simp
  | cons n rest ih =>
    intro acc p hnd hfun
    rw [List.foldl_cons]
    by_cases hm : n.1 = T ∨ n.2.firstType = T
    · rw [if_pos hm]
      have hnd' : (dkeys (dinsert n.1 n.2 acc)).Nodup := dkeys_nodup_dinsert _ _ _ hnd
      have hsub : ∀ q : String × Node, q ∈ dinsert n.1 n.2 acc ++ rest →
          q ∈ acc ++ n :: rest := by
        intro q hq
        rcases List.mem_append.mp hq with h1 | h2
        · rcases (mem_dinsert_pair q n.1 n.2 acc hnd).mp h1 with ⟨ha, hb⟩ | ⟨hmem, _⟩
          · have hq2 : q = n := Prod.ext ha hb
            subst hq2
            exact List.mem_append.mpr (Or.inr (List.mem_cons_self _ _))
          · exact List.mem_append.mpr (Or.inl hmem)
        · exact List.mem_append.mpr (Or.inr (List.mem_cons_of_mem _ h2))
      have hfun' : ∀ k v v', (k, v) ∈ dinsert n.1 n.2 acc ++ rest →
          (k, v') ∈ dinsert n.1 n.2 acc ++ rest → v = v' :=
        fun k v v' h1 h2 => hfun k v v' (hsub _ h1) (hsub _ h2)
      rw [ih _ p hnd' hfun', mem_dinsert_pair p n.1 n.2 acc hnd]
      constructor
      · rintro ((⟨h1, h2⟩ | ⟨hacc, _⟩) | ⟨hrest, hmp⟩)
        · have hp : p = n := Prod.ext h1 h2
          subst hp
          exact Or.inr ⟨List.mem_cons_self _ _, hm⟩
        · exact Or.inl hacc
        · exact Or.inr ⟨List.mem_cons_of_mem _ hrest, hmp⟩
      · rintro (hacc | ⟨hcons, hmp⟩)
        · by_cases hp1 : p.1 = n.1
          · have hpn : (p.1, p.2) ∈ acc ++ n :: rest :=
              List.mem_append.mpr (Or.inl (by simpa using hacc))
            have hnn : (p.1, n.2) ∈ acc ++ n :: rest := by
              apply List.mem_append.mpr
              apply Or.inr
              rw [hp1]
              exact (by simp : (n.1, n.2) ∈ n :: rest)
            exact Or.inl (Or.inl ⟨hp1, hfun p.1 p.2 n.2 hpn hnn⟩)
          · exact Or.inl (Or.inr ⟨hacc, hp1⟩)
        · rcases List.mem_cons.mp hcons with hpe | hprest
          · exact Or.inl (Or.inl ⟨congrArg Prod.fst hpe, congrArg Prod.snd hpe⟩)
          · exact Or.inr ⟨hprest, hmp⟩
    · rw [if_neg hm]
      have hfun' : ∀ k v v', (k, v) ∈ acc ++ rest → (k, v') ∈ acc ++ rest → v = v' := by
        intro k v v' h1 h2
        apply hfun k v v'
        · rcases List.mem_append.mp h1 with h | h
          · exact List.mem_append.mpr (Or.inl h)
          · exact List.mem_append.mpr (Or.inr (List.mem_cons_of_mem _ h))
        · rcases List.mem_append.mp h2 with h | h
          · exact List.mem_append.mpr (Or.inl h)
          · exact List.mem_append.mpr (Or.inr (List.mem_cons_of_mem _ h))
      rw [ih acc p hnd hfun']
      constructor
      · rintro (hacc | ⟨hrest, hmp⟩)
        · exact Or.inl hacc
        · exact Or.inr ⟨List.mem_cons_of_mem _ hrest, hmp⟩
      · rintro (hacc | ⟨hcons, hmp⟩)
        · exact Or.inl hacc
        · rcases List.mem_cons.mp hcons with hpe | hprest
          · exact absurd (hpe ▸ hmp) hm
          · exact Or.inr ⟨hprest, hmp⟩

theorem resolve_fold_mem (nodes : List (String × Node)) (hnd : (dkeys nodes).Nodup) :
    ∀ (targets : List String) (acc : List (String × Node)) (p : String × Node),
    (dkeys acc).Nodup → (∀ q ∈ acc, q ∈ nodes) →
    (p ∈ targets.foldl
        (fun acc target_name =>
          nodes.foldl
            (fun acc2 q =>
              if q.1 = target_name ∨ q.2.firstType = target_name then dinsert q.1 q.2 acc2
              else acc2)
            acc)
        acc
      ↔ p ∈ acc ∨ (p ∈ nodes ∧ ∃ T ∈ targets, p.1 = T ∨ p.2.firstType = T)) := by
  intro targets
  induction targets with
  | nil =>
    intro acc p ha hsub
    simp
  | cons T ts ih =>
    intro acc p ha hsub
    rw [List.foldl_cons]
    have hfun : ∀ k v v', (k, v) ∈ acc ++ nodes → (k, v') ∈ acc ++ nodes → v = v' := by
      intro k v v' h1 h2
      have m1 : (k, v) ∈ nodes := by
        rcases List.mem_append.mp h1 with h | h
        · exact hsub _ h
        · exact h
      have m2 : (k, v') ∈ nodes := by
        rcases List.mem_append.mp h2 with h | h
        · exact hsub _ h
        · exact h
      exact keyFun_of_nodup nodes hnd k v v' m1 m2
    have hroundsub : ∀ q ∈ nodes.foldl
        (fun acc2 q => if q.1 = T ∨ q.2.firstType = T then dinsert q.1 q.2 acc2 else acc2)
        acc, q ∈ nodes := by
      intro q hq
      rcases (resolve_round_mem T nodes acc q ha hfun).mp hq with h | h
      · exact hsub _ h
      · exact h.1
    rw [ih _ p (resolve_round_nodup T nodes acc ha) hroundsub,
        resolve_round_mem T nodes acc p ha hfun]
    constructor
    · rintro ((hacc | ⟨hn, hmp⟩) | ⟨hn, T', hT', hmp⟩)
      · exact Or.inl hacc
      · exact Or.inr ⟨hn, T, List.mem_cons_self _ _, hmp⟩
      · exact Or.inr ⟨hn, T', List.mem_cons_of_mem _ hT', hmp⟩
    · rintro (hacc | ⟨hn, T', hT', hmp⟩)
      · exact Or.inl (Or.inl hacc)
      · rcases List.mem_cons.mp hT' with hTe | hT''
        · subst hTe
          exact Or.inl (Or.inr ⟨hn, hmp⟩)
        · exact Or.inr ⟨hn, T', hT'', hmp⟩

theorem resolve_targets_mem (targets : List String) (nodes : List (String × Node))
    (p : String × Node) (hnd : (dkeys nodes).Nodup) :
    p ∈ resolve_targets targets nodes
      ↔ p ∈ nodes ∧ ∃ T ∈ targets, p.1 = T ∨ p.2.firstType = T := by
  have h := resolve_fold_mem nodes hnd targets [] p (by simp [dkeys]) (by simp)
  simpa [resolve_targets] using h

/-! ### C3 and C9: resolve_targets -/

/-- C3: `resolve_targets` matches a target name `T` to a node instance iff
`T` equals the instance's template name or the first entry of its resolved
type-inheritance list; ancestor types beyond the first entry are never a
match on their own. -/
theorem c3_resolve_targets_match (targets : List String) (nodes : List (String × Node))
    (name : String) (node : Node) (hnd : (dkeys nodes).Nodup) :
    ((name, node) ∈ resolve_targets targets nodes
      ↔ (name, node) ∈ nodes ∧ ∃ T ∈ targets, name = T ∨ node.firstType = T) ∧
    (∀ T, T ∈ node.ancestorTypes → name ≠ T → node.firstType ≠ T →
      (name, node) ∉ resolve_targets [T] nodes) := by
  constructor
  · exact resolve_targets_mem targets nodes (name, node) hnd
  · intro T _ hname hfirst hmem
    rcases (resolve_targets_mem [T] nodes (name, node) hnd).mp hmem
      with ⟨_, T', hT', hm⟩
    rcases List.mem_singleton.mp hT' with rfl
    rcases hm with h | h
    · exact hname h
    · exact hfirst h

/-- Witness for C3: a node of first type "A" with ancestor type "B" is matched
by target "A" and not by target "B". -/
theorem c3_resolve_targets_match_witness :
    ("n1", ({ firstType := "A", ancestorTypes := ["B"], interfaces := [] } : Node))
      ∈ resolve_targets ["A"]
          [("n1", { firstType := "A", ancestorTypes := ["B"], interfaces := [] })] ∧
    ("n1", ({ firstType := "A", ancestorTypes := ["B"], interfaces := [] } : Node))
      ∉ resolve_targets ["B"]
          [("n1", { firstType := "A", ancestorTypes := ["B"], interfaces := [] })] :=
  ⟨(c3_resolve_targets_match ["A"]
      [("n1", { firstType := "A", ancestorTypes := ["B"], interfaces := [] })] "n1"
      { firstType := "A", ancestorTypes := ["B"], interfaces := [] }
      (by decide)).1.mpr ⟨by decide, "A", by decide, Or.inr rfl⟩,
   (c3_resolve_targets_match ["B"]
      [("n1", { firstType := "A", ancestorTypes := ["B"], interfaces := [] })] "n1"
      { firstType := "A", ancestorTypes := ["B"], interfaces := [] }
      (by decide)).2 "B" (by decide) (by decide) (by decide)⟩

theorem resolve_round_skip (T : String) :
    ∀ (nodes : List (String × Node)),
    (∀ p ∈ nodes, ¬(p.1 = T ∨ p.2.firstType = T)) →
    ∀ acc : List (String × Node),
    nodes.foldl
        (fun acc2 q =>
          if q.1 = T ∨ q.2.firstType = T then dinsert q.1 q.2 acc2 else acc2)
        acc
      = acc := by
  intro nodes
  induction nodes with
  | nil => intro _ acc; rfl
  | cons n rest ih =>
    intro h acc
    rw [List.foldl_cons, if_neg (h n (List.mem_cons_self _ _))]
    exact ih (fun p hp => h p (List.mem_cons_of_mem _ hp)) acc

theorem resolve_round_keys (T : String) :
    ∀ (nodes acc : List (String × Node)) (k : String),
    k ∈ dkeys (nodes.foldl
        (fun acc2 q =>
          if q.1 = T ∨ q.2.firstType = T then dinsert q.1 q.2 acc2 else acc2)
        acc) →
    k ∈ dkeys acc ∨ k ∈ dkeys nodes := by
  intro nodes
  induction nodes with
  | nil =>
    intro acc k h
    exact Or.inl (by simpa using h)
  | cons n rest ih =>
    intro acc k h
    rw [List.foldl_cons] at h
    by_cases hm : n.1 = T ∨ n.2.firstType = T
    · rw [if_pos hm] at h
      rcases ih _ k h with h1 | h2
      · rcases (mem_dkeys_dinsert k n.1 n.2 acc).mp h1 with he | ha
        · obtain ⟨n1, n2⟩ := n
          exact Or.inr (by simp [dkeys_cons, he])
        · exact Or.inl ha
      · obtain ⟨n1, n2⟩ := n
        exact Or.inr (by simp [dkeys_cons, h2])
    · rw [if_neg hm] at h
      rcases ih _ k h with h1 | h2
      · exact Or.inl h1
      · obtain ⟨n1, n2⟩ := n
        exact Or.inr (by simp [dkeys_cons, h2])

theorem resolve_fold_keys (nodes : List (String × Node)) :
    ∀ (targets : List String) (acc : List (String × Node)) (k : String),
    k ∈ dkeys (targets.foldl
        (fun acc target_name =>
          nodes.foldl
            (fun acc2 q =>
              if q.1 = target_name ∨ q.2.firstType = target_name then dinsert q.1 q.2 acc2
              else acc2)
            acc)
        acc) →
    k ∈ dkeys acc ∨ k ∈ dkeys nodes := by
  intro targets
  induction targets with
  | nil =>
    intro acc k h
    exact Or.inl (by simpa using h)
  | cons T ts ih =>
    intro acc k h
    rw [List.foldl_cons] at h
    rcases ih _ k h with h1 | h2
    · exact resolve_round_keys T nodes acc k h1
    · exact Or.inr h2

/-- C9: `resolve_targets` is total (it returns a plain map, raising no error);
a target name matching no node instance is silently dropped — deleting it from
the target list leaves the result unchanged — and every key of the result is
the template name of a node instance (never an unmatched target name). -/
theorem c9_resolve_targets_silent (ts1 ts2 targets : List String) (T : String)
    (nodes : List (String × Node)) :
    ((∀ p ∈ nodes, ¬(p.1 = T ∨ p.2.firstType = T)) →
      resolve_targets (ts1 ++ T :: ts2) nodes = resolve_targets (ts1 ++ ts2) nodes) ∧
    (∀ k, k ∈ dkeys (resolve_targets targets nodes) → k ∈ dkeys nodes) := by
  constructor
  · intro h
    simp only [resolve_targets, List.foldl_append, List.foldl_cons]
    rw [resolve_round_skip T nodes h]
  · intro k hk
    rcases resolve_fold_keys nodes targets [] k (by simpa [resolve_targets] using hk)
      with h1 | h2
    · simp [dkeys] at h1
    · exact h2

/-- Witness for C9: the unmatched target "Z" is dropped without error and the
result of a matching lookup is keyed by the node's template name. -/
theorem c9_resolve_targets_silent_witness :
    resolve_targets (["X"] ++ "Z" :: ["Y"])
        [("n1", ({ firstType := "A", ancestorTypes := [], interfaces := [] } : Node))]
      = resolve_targets (["X"] ++ ["Y"])
        [("n1", ({ firstType := "A", ancestorTypes := [], interfaces := [] } : Node))] ∧
    "n1" ∈ dkeys [("n1", ({ firstType := "A", ancestorTypes := [], interfaces := [] } : Node))] :=
  ⟨(c9_resolve_targets_silent ["X"] ["Y"] ["A"] "Z"
      [("n1", { firstType := "A", ancestorTypes := [], interfaces := [] })]).1 (by decide),
   (c9_resolve_targets_silent ["X"] ["Y"] ["A"] "Z"
      [("n1", { firstType := "A", ancestorTypes := [], interfaces := [] })]).2 "n1"
      (by decide)⟩

/-! ### C4: collect_trigger_target_nodes -/

theorem matchesSomeTarget_cons {ρ : Type} (q : String × ρ) (rest : List (String × ρ))
    (p : String × Node) :
    matchesSomeTarget (q :: rest) p
      = ((q.1 = p.1 ∨ q.1 = p.2.firstType) || matchesSomeTarget rest p) := by
  simp [matchesSomeTarget, List.any_cons]

theorem trigger_policy_round {ρ : Type} (p : String × Node) :
    ∀ (qs : List (String × ρ)) (acc : List (String × Node)),
    qs.foldl
        (fun acc2 q =>
          if q.1 = p.1 ∨ q.1 = p.2.firstType then dinsert p.1 p.2 acc2 else acc2)
        acc
      = if matchesSomeTarget qs p then dinsert p.1 p.2 acc else acc := by
  intro qs
  induction qs with
  | nil =>
    intro acc
    simp [matchesSomeTarget]
  | cons q rest ih =>
    intro acc
    rw [List.foldl_cons]
    by_cases hq : q.1 = p.1 ∨ q.1 = p.2.firstType
    · rw [if_pos hq, ih]
      have hm : matchesSomeTarget (q :: rest) p = true := by
        simp [matchesSomeTarget_cons, hq]
      rw [hm, if_pos rfl]
      by_cases hr : matchesSomeTarget rest p = true
      · rw [if_pos hr, dinsert_idem]
      · rw [if_neg hr]
    · rw [if_neg hq, ih]
      have hm : matchesSomeTarget (q :: rest) p = matchesSomeTarget rest p := by
        simp [matchesSomeTarget_cons, hq]
      rw [hm]

theorem trigger_nodes_fold {ρ : Type} (pts : List (String × ρ)) :
    ∀ (nodes acc : List (String × Node)),
    (dkeys nodes).Nodup → (∀ p ∈ nodes, p.1 ∉ dkeys acc) →
    nodes.foldl
        (fun acc p =>
          pts.foldl
            (fun acc2 q =>
              if q.1 = p.1 ∨ q.1 = p.2.firstType then dinsert p.1 p.2 acc2 else acc2)
            acc)
        acc
      = acc ++ nodes.filter (matchesSomeTarget pts) := by
  intro nodes
  induction nodes with
  | nil =>
    intro acc _ _
    simp
  | cons n rest ih =>
    intro acc hnd hdisj
    obtain ⟨n1, n2⟩ := n
    rw [dkeys_cons, List.nodup_cons] at hnd
    rw [List.foldl_cons, trigger_policy_round (n1, n2) pts acc]
    have hn1 : n1 ∉ dkeys acc := hdisj (n1, n2) (List.mem_cons_self _ _)
    by_cases hm : matchesSomeTarget pts (n1, n2) = true
    · rw [if_pos hm, dinsert_eq_append n1 n2 acc hn1]
      have hdisj' : ∀ p ∈ rest, p.1 ∉ dkeys (acc ++ [(n1, n2)]) := by
        intro p hp hmem
        have hk : dkeys (acc ++ [(n1, n2)]) = dkeys acc ++ [n1] := by
          simp [dkeys]
        rw [hk] at hmem
        rcases List.mem_append.mp hmem with h1 | h2
        · exact hdisj p (List.mem_cons_of_mem _ hp) h1
        · rcases List.mem_singleton.mp h2 with he
          exact hnd.1 (he ▸ (by exact (mem_dkeys p.1 rest).mpr ⟨p.2, by simpa using hp⟩))
      rw [ih (acc ++ [(n1, n2)]) hnd.2 hdisj']
      rw [List.filter_cons_of_pos hm, List.append_assoc]
      rfl
    · rw [if_neg hm]
      rw [ih acc hnd.2 (fun p hp => hdisj p (List.mem_cons_of_mem _ hp))]
      rw [List.filter_cons_of_neg (by simpa using hm)]

/-- C4: `collect_trigger_target_nodes` returns, with a target filter, the
single first node (in node-map order) whose template name or first type
equals the filter name; without a filter but with policy targets, exactly the
nodes matching some policy target by the same rule; with neither, every node
in the document. -/
theorem c4_collect_trigger_target_nodes {ρ : Type} (fname : String)
    (nodes : List (String × Node)) (policy_targets : List (String × ρ))
    (hnd : (dkeys nodes).Nodup) :
    (∀ p, nodes.find? (fun p => p.1 = fname ∨ p.2.firstType = fname) = some p →
      collect_trigger_target_nodes (some fname) nodes policy_targets = [p]) ∧
    (policy_targets ≠ [] →
      collect_trigger_target_nodes none nodes policy_targets
        = nodes.filter (matchesSomeTarget policy_targets)) ∧
    collect_trigger_target_nodes none nodes ([] : List (String × ρ)) = nodes := by
  refine ⟨?_, ?_, ?_⟩
  · intro p hp
    simp only [collect_trigger_target_nodes]
    rw [hp]
  · intro hne
    have hlen : 0 < policy_targets.length := List.length_pos.mpr hne
    simp only [collect_trigger_target_nodes]
    rw [if_pos hlen]
    have h := trigger_nodes_fold policy_targets nodes [] hnd (by simp [dkeys])
    simpa using h
  · simp [collect_trigger_target_nodes]

/-- Witness for C4: a two-node document exercised through all three
branches. -/
theorem c4_collect_trigger_target_nodes_witness :
    collect_trigger_target_nodes (some "b")
        [("a", ({ firstType := "T1", ancestorTypes := [], interfaces := [] } : Node)),
         ("b", { firstType := "T2", ancestorTypes := [], interfaces := [] })]
        [("T1", (0 : Nat))]
      = [("b", { firstType := "T2", ancestorTypes := [], interfaces := [] })] ∧
    collect_trigger_target_nodes none
        [("a", ({ firstType := "T1", ancestorTypes := [], interfaces := [] } : Node)),
         ("b", { firstType := "T2", ancestorTypes := [], interfaces := [] })]
        [("T1", (0 : Nat))]
      = [("a", ({ firstType := "T1", ancestorTypes := [], interfaces := [] } : Node)),
         ("b", { firstType := "T2", ancestorTypes := [], interfaces := [] })].filter
          (matchesSomeTarget [("T1", (0 : Nat))]) ∧
    collect_trigger_target_nodes none
        [("a", ({ firstType := "T1", ancestorTypes := [], interfaces := [] } : Node)),
         ("b", { firstType := "T2", ancestorTypes := [], interfaces := [] })]
        ([] : List (String × Nat))
      = [("a", ({ firstType := "T1", ancestorTypes := [], interfaces := [] } : Node)),
         ("b", { firstType := "T2", ancestorTypes := [], interfaces := [] })] :=
  ⟨(c4_collect_trigger_target_nodes "b"
      [("a", { firstType := "T1", ancestorTypes := [], interfaces := [] }),
       ("b", { firstType := "T2", ancestorTypes := [], interfaces := [] })]
      [("T1", (0 : Nat))] (by decide)).1
      ("b", { firstType := "T2", ancestorTypes := [], interfaces := [] }) (by decide),
   (c4_collect_trigger_target_nodes "b"
      [("a", { firstType := "T1", ancestorTypes := [], interfaces := [] }),
       ("b", { firstType := "T2", ancestorTypes := [], interfaces := [] })]
      [("T1", (0 : Nat))] (by decide)).2.1 (by decide),
   (c4_collect_trigger_target_nodes "b"
      [("a", { firstType := "T1", ancestorTypes := [], interfaces := [] }),
       ("b", { firstType := "T2", ancestorTypes := [], interfaces := [] })]
      [("T1", (0 : Nat))] (by decide)).2.2⟩

/-! ### C1: collect_trigger_action_from_interfaces -/

theorem getLast?_append_match {α : Type} (l1 l2 : List α) :
    (l1 ++ l2).getLast?
      = (l2.getLast?).elim l1.getLast? (fun a => some a) := by
  induction l2 using List.reverseRecOn with
  | nil => simp
  | append_singleton xs x ih =>
    rw [← List.append_assoc, List.getLast?_concat, List.getLast?_concat]
    rfl

theorem scanOperations_eq (iname nm : String) (inputs : List (String × VData))
    (evalInput : String → VData → VData) :
    ∀ (ops : List (String × Operation)) (st : ScanState),
    scanOperations iname ops nm inputs evalInput st
      = (ops.find? (fun op => iname ++ "." ++ op.1 = nm)).elim st
          (fun op => (some (iname, op.1, op.2,
              inputs.map (fun kv => (kv.1, evalInput kv.1 kv.2))), st.2 + 1)) := by
  intro ops
  induction ops with
  | nil => intro st; rfl
  | cons op rest ih =>
    intro st
    obtain ⟨oname, oper⟩ := op
    by_cases hm : iname ++ "." ++ oname = nm
    · rw [show scanOperations iname ((oname, oper) :: rest) nm inputs evalInput st
          = (some (iname, oname, oper,
              inputs.map (fun kv => (kv.1, evalInput kv.1 kv.2))), st.2 + 1) from by
            simp [scanOperations, hm]]
      rw [List.find?_cons_of_pos _ (by simpa using hm)]
      rfl
    · rw [show scanOperations iname ((oname, oper) :: rest) nm inputs evalInput st
          = scanOperations iname rest nm inputs evalInput st from by
            simp [scanOperations, hm]]
      rw [List.find?_cons_of_neg _ (by simpa using hm)]
      exact ih st

theorem scan_interfaces_fold (nm : String) (inputs : List (String × VData))
    (evalInput : String → VData → VData) :
    ∀ (itfs : List (String × Interface)) (st : ScanState),
    itfs.foldl
        (fun st2 itf => scanOperations itf.1 itf.2.operations nm inputs evalInput st2) st
      = ((itfs.filterMap (interfaceFirstMatch nm)).getLast?.elim st.1
          (fun m => some (withInputs inputs evalInput m)),
         st.2 + (itfs.filterMap (interfaceFirstMatch nm)).length) := by
  intro itfs
  induction itfs using List.reverseRecOn with
  | nil => intro st; simp
  | append_singleton itfs itf ih =>
    intro st
    rw [List.foldl_append, List.foldl_cons, List.foldl_nil, ih,
        scanOperations_eq itf.1 nm inputs evalInput, List.filterMap_append]
    cases hf : itf.2.operations.find? (fun op => itf.1 ++ "." ++ op.1 = nm) with
    | some op =>
      have hifm : interfaceFirstMatch nm itf = some (itf.1, op.1, op.2) := by
        simp [interfaceFirstMatch, hf]
      simp [hifm, getLast?_append_match, withInputs, Nat.add_assoc]
    | none =>
      have hifm : interfaceFirstMatch nm itf = none := by
        simp [interfaceFirstMatch, hf]
      simp [hifm]

theorem scan_nodes_fold (nm : String) (inputs : List (String × VData))
    (evalInput : String → VData → VData) :
    ∀ (tns : List (String × Node)) (st : ScanState),
    tns.foldl
        (fun st1 tn =>
          tn.2.interfaces.foldl
            (fun st2 itf => scanOperations itf.1 itf.2.operations nm inputs evalInput st2)
            st1)
        st
      = ((triggerMatches tns nm).getLast?.elim st.1
          (fun m => some (withInputs inputs evalInput m)),
         st.2 + (triggerMatches tns nm).length) := by
  intro tns
  induction tns using List.reverseRecOn with
  | nil => intro st; simp [triggerMatches]
  | append_singleton tns tn ih =>
    intro st
    rw [List.foldl_append, List.foldl_cons, List.foldl_nil, ih,
        scan_interfaces_fold nm inputs evalInput]
    have hsplit : triggerMatches (tns ++ [tn]) nm
        = triggerMatches tns nm ++ tn.2.interfaces.filterMap (interfaceFirstMatch nm) := by
      simp [triggerMatches]
    rw [hsplit, getLast?_append_match, List.length_append]
    cases hlast : (tn.2.interfaces.filterMap (interfaceFirstMatch nm)).getLast? with
    | some m => simp [Nat.add_assoc]
    | none =>
      have hnil : tn.2.interfaces.filterMap (interfaceFirstMatch nm) = [] :=
        List.getLast?_eq_none_iff.mp hlast
      simp [hnil]

/-- C1 (amended): for a `call_operation` trigger activity, the resolver scans
every candidate node's interfaces and operations for an exact
`<interface>.<operation>` match with the dotted name; zero matches fail with
a fatal error naming the dotted name; more than one match is accepted
silently, returning the LAST match in candidate iteration order (every later
match overwrites the collected action). -/
theorem c1_trigger_action_scan (targeted_nodes : List (String × Node))
    (nm : String) (inputs : List (String × VData))
    (evalInput : String → VData → VData) (loc : Loc) :
    (triggerMatches targeted_nodes nm = [] →
      collect_trigger_action_from_interfaces targeted_nodes nm inputs evalInput loc
        = .error (.parseErr (noActionMsg nm) loc)) ∧
    (∀ ms m, triggerMatches targeted_nodes nm = ms ++ [m] →
      collect_trigger_action_from_interfaces targeted_nodes nm inputs evalInput loc
        = .ok (some (withInputs inputs evalInput m))) := by
  constructor
  · intro h
    simp only [collect_trigger_action_from_interfaces]
    rw [scan_nodes_fold nm inputs evalInput targeted_nodes ((none : Option ActTuple), 0), h]
    simp
  · intro ms m h
    simp only [collect_trigger_action_from_interfaces]
    rw [scan_nodes_fold nm inputs evalInput targeted_nodes ((none : Option ActTuple), 0), h]
    simp [List.getLast?_concat]

/-- C1 counterexample: two candidate nodes both exposing interface "I" with
operation "o"; the resolver returns the SECOND node's operation (tag 2), not
the first match (tag 1), so "first match wins" is false. -/
theorem c1_counterexample :
    collect_trigger_action_from_interfaces
        [("n1", { firstType := "T", ancestorTypes := [],
                  interfaces := [("I", { operations := [("o", { tag := 1 })] })] }),
         ("n2", { firstType := "T", ancestorTypes := [],
                  interfaces := [("I", { operations := [("o", { tag := 2 })] })] })]
        "I.o" [] (fun _ v => v) ⟨0, 0⟩
      = .ok (some ("I", "o", { tag := 2 }, [])) ∧
    ({ tag := 2 } : Operation) ≠ { tag := 1 } := by
  constructor
  · rfl
  · decide

/-- Witness for C1: a missing dotted name aborts with the message naming it; a
present one returns the matching operation. -/
theorem c1_trigger_action_scan_witness :
    collect_trigger_action_from_interfaces
        [("n1", { firstType := "T", ancestorTypes := [],
                  interfaces := [("I", { operations := [("o", { tag := 5 })] })] })]
        "I.x" [] (fun _ v => v) ⟨1, 2⟩
      = .error (.parseErr (noActionMsg "I.x") ⟨1, 2⟩) ∧
    collect_trigger_action_from_interfaces
        [("n1", { firstType := "T", ancestorTypes := [],
                  interfaces := [("I", { operations := [("o", { tag := 5 })] })] })]
        "I.o" [] (fun _ v => v) ⟨1, 2⟩
      = .ok (some (withInputs [] (fun _ v => v) ("I", "o", { tag := 5 }))) :=
  ⟨(c1_trigger_action_scan
      [("n1", { firstType := "T", ancestorTypes := [],
                interfaces := [("I", { operations := [("o", { tag := 5 })] })] })]
      "I.x" [] (fun _ v => v) ⟨1, 2⟩).1 (by rfl),
   (c1_trigger_action_scan
      [("n1", { firstType := "T", ancestorTypes := [],
                interfaces := [("I", { operations := [("o", { tag := 5 })] })] })]
      "I.o" [] (fun _ v => v) ⟨1, 2⟩).2 []
      ("I", "o", { tag := 5 }) (by rfl)⟩

/-! ### C5: target_filter-vs-targets consistency -/

/-- C5 (amended): a trigger whose `target_filter.node` reference resolves but
names a node that is not among the policy's collected target names makes the
build fail with a validation error naming the mismatched node — provided the
policy has at least one target; with an empty target set the check is
skipped. -/
theorem c5_target_filter_check {ρ σ : Type} (name : String) (tdef : TDef) (r : TRef)
    (resolve_reference : TRef → Except PError σ) (res : σ)
    (policy_targets : List (String × ρ)) (nodes : List (String × Node))
    (evalInput : String → VData → VData) (loc : Loc)
    (hf : tdef.target_filter = .filterNode r)
    (hres : resolve_reference r = .ok res)
    (hne : policy_targets ≠ [])
    (hnot : ¬ (dkeys policy_targets).contains r.data) :
    collect_triggers [] [(name, tdef)] resolve_reference policy_targets nodes
        evalInput loc
      = .error (.parseErr (filterMismatchMsg r.data) loc) := by
  have hmerge : mergeTriggerDefs ([] : List (String × TDef)) [(name, tdef)]
      = [(name, tdef)] := rfl
  simp only [collect_triggers, hmerge]
  have hnotin : r.data ∉ dkeys policy_targets := by simpa using hnot
  simp [hf, hres, List.length_pos.mpr hne, hnotin, Bind.bind, Except.bind,
    pure, Except.pure]

/-- C5 counterexample: a policy with NO targets accepts a trigger whose
`target_filter.node` names "X" — which is certainly not among the (empty) set
of the policy's target names — and the build succeeds instead of failing. -/
theorem c5_counterexample :
    collect_triggers []
        [("t", { target_filter := .filterNode ⟨"X", 0⟩, event := none,
                 condition := none, action := [] })]
        (fun _ => (.ok 0 : Except PError Nat)) ([] : List (String × Nat)) []
        (fun _ v => v) ⟨9, 9⟩
      = .ok [("t", { name := "t", event := none, target_filter := none,
                     condition := none, action := [] })] := by
  rfl

/-- Witness for C5: with one collected target "A", a filter naming "X" aborts
with the mismatch message. -/
theorem c5_target_filter_check_witness :
    collect_triggers []
        [("t", { target_filter := .filterNode ⟨"X", 0⟩, event := none,
                 condition := none, action := [] })]
        (fun _ => (.ok 0 : Except PError Nat)) [("A", (0 : Nat))] []
        (fun _ v => v) ⟨9, 9⟩
      = .error (.parseErr (filterMismatchMsg "X") ⟨9, 9⟩) :=
  c5_target_filter_check "t"
    { target_filter := .filterNode ⟨"X", 0⟩, event := none,
      condition := none, action := [] }
    ⟨"X", 0⟩ (fun _ => (.ok 0 : Except PError Nat)) 0 [("A", 0)] []
    (fun _ v => v) ⟨9, 9⟩ rfl rfl (by decide) (by decide)

/-! ### C7: the parse entry points -/

/-- C7 (code bug): a valid CSAR whose metadata yields no entrypoint makes
`parse` (through `parse_csar`) return successfully with NO topology: the
Python function body ends without reaching a return statement and implicitly
returns None, despite the annotated return type `Topology`. -/
theorem c7_no_entrypoint_returns_none :
    parse true { valid := true, entrypoint := none, isDirArchive := true } "svc.yaml"
        none (fun _ _ => .ok { tag := 1 }) = .ok none := rfl
